import Mathlib

/-!  Verification of the core of the ncollide collision-query library:
bounding-volume algebra, the cost functions driving best-first ray casts
over aggregate shapes, and the composite-shape closest-points query.
Scalars are modelled by rationals; points and vectors of dimension `d`
are functions `Fin d → ℚ` with componentwise arithmetic.  External
collaborators (the BVT best-first engine, isometries, the primitive
shape queries, the point-AABB distance) are taken as function
parameters; a Rust assertion or `expect` panic is modelled by `none`. -/

namespace NCollide

/-- Points and vectors of dimension `d`. -/
abbrev Pt (d : ℕ) := Fin d → ℚ

/-- Componentwise order on points, the library's `na::partial_le`. -/
def pointLe {d : ℕ} (p q : Pt d) : Prop := ∀ i, p i ≤ q i

instance {d : ℕ} (p q : Pt d) : Decidable (pointLe p q) := by
  unfold pointLe; infer_instance

/-- The point with every coordinate `x`, the library's `na::repeat x`. -/
def constPt (d : ℕ) (x : ℚ) : Pt d := fun _ => x

/-- The origin, `Point::origin()`. -/
def originPt (d : ℕ) : Pt d := fun _ => 0

/-- Dot product, `na::dot`. -/
def dotQ {d : ℕ} (u v : Pt d) : ℚ := ∑ i, u i * v i

/-- An axis-aligned bounding box (`ncollide_entities/bounding_volume/aabb.rs`). -/
@[ext] structure AABB (d : ℕ) where
  mins : Pt d
  maxs : Pt d

/-- The AABB invariant `mins ≤ maxs`. -/
def AABB.valid {d : ℕ} (a : AABB d) : Prop := pointLe a.mins a.maxs

instance {d : ℕ} (a : AABB d) : Decidable a.valid := by
  unfold AABB.valid; infer_instance

/-- Constructor `AABB::new`; its assertion `na::partial_le(mins, maxs)`
is modelled by returning `none` on violation. -/
def AABB.new {d : ℕ} (mins maxs : Pt d) : Option (AABB d) :=
  if pointLe mins maxs then some ⟨mins, maxs⟩ else none

/-- Accessor `AABB::center`, i.e. `na::center(mins, maxs)`. -/
def AABB.center {d : ℕ} (a : AABB d) : Pt d := fun i => (a.mins i + a.maxs i) / 2

/-- Accessor `AABB::half_extents`, i.e. `(maxs - mins) / 2`. -/
def AABB.half_extents {d : ℕ} (a : AABB d) : Pt d := fun i => (a.maxs i - a.mins i) / 2

/-- Method `AABB::tightened`: first asserts the margin nonnegative, then
builds the shrunk box through `AABB::new`, whose own validity assertion
may fire.  Both assertions are modelled by `none`. -/
def AABB.tightened {d : ℕ} (a : AABB d) (amount : ℚ) : Option (AABB d) :=
  if 0 ≤ amount then
    AABB.new (a.mins + constPt d amount) (a.maxs + constPt d (-amount))
  else none

/-- Minimum of two scalars, written so that the kernel can evaluate it. -/
def qmin (a b : ℚ) : ℚ := if a ≤ b then a else b

/-- Maximum of two scalars, written so that the kernel can evaluate it. -/
def qmax (a b : ℚ) : ℚ := if a ≤ b then b else a

/-- A ray: origin point plus direction vector. -/
structure Ray (d : ℕ) where
  origin : Pt d
  dir : Pt d

/-- Modelled from the spec: `AABB::toi_with_ray` — the AABB ray cast is
not among the analysed sources.  Slab method: every axis with a nonzero
direction component constrains the hit parameter to an interval; an axis
parallel to the ray requires the origin inside that slab.  The ray
misses when the exit time is below `max 0 entry`; otherwise an exterior
origin yields the entry time, while an interior origin yields `0` when
`solid = true` and the exit time when `solid = false`.  A ray whose
direction is zero on every axis reports `0` when its origin is inside. -/
def aabbToiWithRay {d : ℕ} (a : AABB d) (r : Ray d) (solid : Bool) : Option ℚ :=
  if ∀ i, r.dir i = 0 → a.mins i ≤ r.origin i ∧ r.origin i ≤ a.maxs i then
    let cs := (List.finRange d).filterMap fun i =>
      if r.dir i = 0 then none
      else
        let t1 := (a.mins i - r.origin i) / r.dir i
        let t2 := (a.maxs i - r.origin i) / r.dir i
        some (qmin t1 t2, qmax t1 t2)
    match cs with
    | [] => some 0
    | c :: rest =>
      let tmin := (rest.map Prod.fst).foldl qmax c.1
      let tmax := (rest.map Prod.snd).foldl qmin c.2
      if tmax < qmax tmin 0 then none
      else if 0 ≤ tmin then some tmin
      else if solid then some 0
      else some tmax
  else none

/-- State of `CompoundRayToiCostFn` (`ncollide_queries/ray/ray_compound.rs`).
The compound shape is represented by its `shapes()` accessor: part `b` is a
stored placement of type `M` together with the part's external
`toi_with_transform_and_ray` routine. -/
structure CompoundRayToiCostFn (d : ℕ) (M : Type) where
  shapes : ℕ → M × (M → Ray d → Bool → Option ℚ)
  ray : Ray d
  solid : Bool

/-- Method `CompoundRayToiCostFn::compute_bv_cost`:
`aabb.toi_with_ray(self.ray, self.solid)`. -/
def CompoundRayToiCostFn.compute_bv_cost {d : ℕ} {M : Type}
    (f : CompoundRayToiCostFn d M) (aabb : AABB d) : Option ℚ :=
  aabbToiWithRay aabb f.ray f.solid

/-- Method `CompoundRayToiCostFn::compute_b_cost`: the part's ray cast
with the stored placement and the caller's solid flag, the time of impact
doubling as cost and payload. -/
def CompoundRayToiCostFn.compute_b_cost {d : ℕ} {M : Type}
    (f : CompoundRayToiCostFn d M) (b : ℕ) : Option (ℚ × ℚ) :=
  let elt := f.shapes b
  (elt.2 elt.1 f.ray f.solid).map fun toi => (toi, toi)

/-- A ray hit: time of impact and normal
(`RayIntersection` without the optional UVs). -/
structure RayIntersection (d : ℕ) where
  toi : ℚ
  normal : Pt d

/-- A base mesh (`src/query/ray_internal/ray_mesh.rs`), represented by its
element accessors: for index `b`, `element_at(b).toi_with_ray` and
`element_at(b).toi_and_normal_with_ray` in the mesh's local frame. -/
structure BaseMesh (d : ℕ) where
  elementToi : ℕ → Ray d → Bool → Option ℚ
  elementToiAndNormal : ℕ → Ray d → Bool → Option (RayIntersection d)

/-- State of `BaseMeshRayToiCostFn`: the mesh and the local-space ray.
The struct holds no solid flag. -/
structure BaseMeshRayToiCostFn (d : ℕ) where
  mesh : BaseMesh d
  ray : Ray d

/-- Method `BaseMeshRayToiCostFn::compute_bv_cost`:
`aabb.toi_with_ray(&Id::new(), self.ray, true)`. -/
def BaseMeshRayToiCostFn.compute_bv_cost {d : ℕ}
    (f : BaseMeshRayToiCostFn d) (aabb : AABB d) : Option ℚ :=
  aabbToiWithRay aabb f.ray true

/-- Method `BaseMeshRayToiCostFn::compute_b_cost`: the element's ray cast
with the solid flag hard-wired to `true`. -/
def BaseMeshRayToiCostFn.compute_b_cost {d : ℕ}
    (f : BaseMeshRayToiCostFn d) (b : ℕ) : Option (ℚ × ℚ) :=
  (f.mesh.elementToi b f.ray true).map fun toi => (toi, toi)

/-- State of `BaseMeshRayToiAndNormalCostFn`. -/
structure BaseMeshRayToiAndNormalCostFn (d : ℕ) where
  mesh : BaseMesh d
  ray : Ray d

/-- Method `BaseMeshRayToiAndNormalCostFn::compute_bv_cost`:
`aabb.toi_with_ray(&Id::new(), self.ray, true)`. -/
def BaseMeshRayToiAndNormalCostFn.compute_bv_cost {d : ℕ}
    (f : BaseMeshRayToiAndNormalCostFn d) (aabb : AABB d) : Option ℚ :=
  aabbToiWithRay aabb f.ray true

/-- Method `BaseMeshRayToiAndNormalCostFn::compute_b_cost`: the element's
`toi_and_normal_with_ray` with the solid flag hard-wired to `true`. -/
def BaseMeshRayToiAndNormalCostFn.compute_b_cost {d : ℕ}
    (f : BaseMeshRayToiAndNormalCostFn d) (b : ℕ) :
    Option (ℚ × RayIntersection d) :=
  (f.mesh.elementToiAndNormal b f.ray true).map fun inter => (inter.toi, inter)

/-- Method `BaseMesh::toi_with_ray`.  The BVT engine `search` (the
external `bvt().best_first_search`, receiving the two cost callbacks) and
the isometry's action on rays `mInv` (the external
`ray.inverse_transform_by(m)`) are parameters.  The `solid` parameter is
the method's third argument, bound to `_` in the source. -/
def BaseMesh.toi_with_ray {d : ℕ} (mesh : BaseMesh d)
    (search : (AABB d → Option ℚ) → (ℕ → Option (ℚ × ℚ)) → Option (ℕ × ℚ))
    (mInv : Ray d → Ray d) (ray : Ray d) (solid : Bool) : Option ℚ :=
  let lsRay := mInv ray
  let f : BaseMeshRayToiCostFn d := ⟨mesh, lsRay⟩
  (search f.compute_bv_cost f.compute_b_cost).map Prod.snd

/-- Method `BaseMesh::toi_and_normal_with_ray`; `rot` is the external
`m.rotate_vector`, applied to the returned normal.  The `solid` parameter
is bound to `_` in the source. -/
def BaseMesh.toi_and_normal_with_ray {d : ℕ} (mesh : BaseMesh d)
    (search : (AABB d → Option ℚ) → (ℕ → Option (ℚ × RayIntersection d)) →
      Option (ℕ × RayIntersection d))
    (mInv : Ray d → Ray d) (rot : Pt d → Pt d) (ray : Ray d) (solid : Bool) :
    Option (RayIntersection d) :=
  let lsRay := mInv ray
  let f : BaseMeshRayToiAndNormalCostFn d := ⟨mesh, lsRay⟩
  (search f.compute_bv_cost f.compute_b_cost).map fun x =>
    ⟨x.2.toi, rot x.2.normal⟩

/-- A triangle mesh, which forwards every ray cast to its base mesh. -/
structure TriMesh (d : ℕ) where
  base_mesh : BaseMesh d

/-- Method `TriMesh::toi_with_ray`: `self.base_mesh().toi_with_ray(m, ray, solid)`. -/
def TriMesh.toi_with_ray {d : ℕ} (t : TriMesh d)
    (search : (AABB d → Option ℚ) → (ℕ → Option (ℚ × ℚ)) → Option (ℕ × ℚ))
    (mInv : Ray d → Ray d) (ray : Ray d) (solid : Bool) : Option ℚ :=
  t.base_mesh.toi_with_ray search mInv ray solid

/-- Method `TriMesh::toi_and_normal_with_ray`, forwarding to the base mesh. -/
def TriMesh.toi_and_normal_with_ray {d : ℕ} (t : TriMesh d)
    (search : (AABB d → Option ℚ) → (ℕ → Option (ℚ × RayIntersection d)) →
      Option (ℕ × RayIntersection d))
    (mInv : Ray d → Ray d) (rot : Pt d → Pt d) (ray : Ray d) (solid : Bool) :
    Option (RayIntersection d) :=
  t.base_mesh.toi_and_normal_with_ray search mInv rot ray solid

/-- A polyline, which forwards every ray cast to its base mesh. -/
structure Polyline (d : ℕ) where
  base_mesh : BaseMesh d

/-- Method `Polyline::toi_with_ray`: `self.base_mesh().toi_with_ray(m, ray, solid)`. -/
def Polyline.toi_with_ray {d : ℕ} (p : Polyline d)
    (search : (AABB d → Option ℚ) → (ℕ → Option (ℚ × ℚ)) → Option (ℕ × ℚ))
    (mInv : Ray d → Ray d) (ray : Ray d) (solid : Bool) : Option ℚ :=
  p.base_mesh.toi_with_ray search mInv ray solid

/-- Method `Polyline::toi_and_normal_with_ray`, forwarding to the base mesh. -/
def Polyline.toi_and_normal_with_ray {d : ℕ} (p : Polyline d)
    (search : (AABB d → Option ℚ) → (ℕ → Option (ℚ × RayIntersection d)) →
      Option (ℕ × RayIntersection d))
    (mInv : Ray d → Ray d) (rot : Pt d → Pt d) (ray : Ray d) (solid : Bool) :
    Option (RayIntersection d) :=
  p.base_mesh.toi_and_normal_with_ray search mInv rot ray solid

/-- The `ClosestPoints` result variant. -/
inductive ClosestPoints (d : ℕ)
  | Intersecting
  | WithinMargin (p1 p2 : Pt d)
  | Disjoint

/-- Modelled from the spec: `ClosestPoints::flip` — it is not among the
analysed sources.  It swaps the witness points of `WithinMargin` and
leaves `Intersecting` and `Disjoint` unchanged. -/
def ClosestPoints.flip {d : ℕ} : ClosestPoints d → ClosestPoints d
  | ClosestPoints.WithinMargin p1 p2 => ClosestPoints.WithinMargin p2 p1
  | ClosestPoints.Intersecting => ClosestPoints.Intersecting
  | ClosestPoints.Disjoint => ClosestPoints.Disjoint

/-- State of `CompositeShapeAgainstClosestPointsCostFn`
(`src/query/closest_points_internal/composite_shape_against_shape.rs`):
the Minkowski-sum shift and margin vectors, the query margin, and the
mutable stop flag. -/
structure CompositeShapeAgainstClosestPointsCostFn (d : ℕ) where
  msum_shift : Pt d
  msum_margin : Pt d
  margin : ℚ
  stop : Bool

/-- Constructor `CompositeShapeAgainstClosestPointsCostFn::new`.  The
second shape's AABB in the composite's local frame,
`ls_aabb2 = g2.aabb(inverse(m1) * m2)`, is an external computation and is
taken as an argument; the shift is the negated centre, the margin the
half extents, and the stop flag starts unset. -/
def CompositeShapeAgainstClosestPointsCostFn.new {d : ℕ}
    (ls_aabb2 : AABB d) (margin : ℚ) :
    CompositeShapeAgainstClosestPointsCostFn d :=
  { msum_shift := fun i => -(ls_aabb2.center i)
    msum_margin := ls_aabb2.half_extents
    margin := margin
    stop := false }

/-- Method `CompositeShapeAgainstClosestPointsCostFn::compute_bv_cost`:
build the Minkowski sum of the node's AABB with the negated second-shape
AABB through `AABB::new` (the outer `none` models the constructor's
assertion), then, unless the stop flag is set, return the solid distance
from the origin.  The point-AABB distance routine is external and passed
as `distFn`. -/
def CompositeShapeAgainstClosestPointsCostFn.compute_bv_cost {d : ℕ}
    (distFn : AABB d → Pt d → Bool → ℚ)
    (f : CompositeShapeAgainstClosestPointsCostFn d) (bv : AABB d) :
    Option (Option ℚ) :=
  (AABB.new (bv.mins + f.msum_shift + -f.msum_margin)
      (bv.maxs + f.msum_shift + f.msum_margin)).map fun msum =>
    if f.stop then none else some (distFn msum (originPt d) true)

/-- Method `CompositeShapeAgainstClosestPointsCostFn::compute_b_cost`.
`map_transformed_part_at` invokes the callback once with the transformed
part; the primitive `query::closest_points` outcome for leaf `b` is the
external `cp b` and `na::distance` is the external `dist`.  Returns the
updated state (only the stop flag can change) together with the result. -/
def CompositeShapeAgainstClosestPointsCostFn.compute_b_cost {d : ℕ}
    (cp : ℕ → ClosestPoints d) (dist : Pt d → Pt d → ℚ)
    (f : CompositeShapeAgainstClosestPointsCostFn d) (b : ℕ) :
    CompositeShapeAgainstClosestPointsCostFn d × Option (ℚ × ClosestPoints d) :=
  match cp b with
  | ClosestPoints.WithinMargin p1 p2 =>
      (f, some (dist p1 p2, ClosestPoints.WithinMargin p1 p2))
  | ClosestPoints.Intersecting =>
      ({ f with stop := true }, some (0, ClosestPoints.Intersecting))
  | ClosestPoints.Disjoint =>
      (f, some (f.margin, ClosestPoints.Disjoint))

/-- One best-first engine callback into the closest-points cost function:
either a bounding-volume inspection or a leaf evaluation. -/
inductive BVTOp (d : ℕ)
  | bv (v : AABB d)
  | leaf (b : ℕ)

/-- The cost-function state after one callback: `compute_bv_cost` takes
the state by mutable reference but never writes it; `compute_b_cost` may
set the stop flag. -/
def stepState {d : ℕ} (cp : ℕ → ClosestPoints d) (dist : Pt d → Pt d → ℚ)
    (f : CompositeShapeAgainstClosestPointsCostFn d) :
    BVTOp d → CompositeShapeAgainstClosestPointsCostFn d
  | BVTOp.bv _ => f
  | BVTOp.leaf b => (f.compute_b_cost cp dist b).1

/-- The cost-function state after a sequence of engine callbacks. -/
def runOps {d : ℕ} (cp : ℕ → ClosestPoints d) (dist : Pt d → Pt d → ℚ)
    (f : CompositeShapeAgainstClosestPointsCostFn d) (ops : List (BVTOp d)) :
    CompositeShapeAgainstClosestPointsCostFn d :=
  ops.foldl (stepState cp dist) f

/-- Function `composite_shape_against_shape`: run the external best-first
search over the composite's BVT (`bfs`, a function of the five arguments,
standing for `g1.bvt().best_first_search(&mut cost_fn)`), keep the user
data, and unwrap with `expect`; `none` models the panic when the search
yields nothing. -/
def composite_shape_against_shape {d : ℕ} {M G : Type}
    (bfs : M → G → M → G → ℚ → Option (ℕ × ClosestPoints d))
    (m1 : M) (g1 : G) (m2 : M) (g2 : G) (margin : ℚ) :
    Option (ClosestPoints d) :=
  (bfs m1 g1 m2 g2 margin).map Prod.snd

/-- Function `shape_against_composite_shape`: the composite query with the
arguments swapped, its result flipped afterwards. -/
def shape_against_composite_shape {d : ℕ} {M G : Type}
    (bfs : M → G → M → G → ℚ → Option (ℕ × ClosestPoints d))
    (m1 : M) (g1 : G) (m2 : M) (g2 : G) (margin : ℚ) :
    Option (ClosestPoints d) :=
  (composite_shape_against_shape bfs m2 g2 m1 g1 margin).map ClosestPoints.flip

/-- Method `Plane::distance_to_point`
(`src/query/point_internal/point_plane.rs`): dot the plane normal with
the local-space point — `mInv` is the external
`m.inverse_transform_point` — and clamp to zero only when the point is
inside and the query is solid. -/
def Plane.distance_to_point {d : ℕ} (normal : Pt d) (mInv : Pt d → Pt d)
    (pt : Pt d) (solid : Bool) : ℚ :=
  let dist := dotQ normal (mInv pt)
  if dist < 0 ∧ solid = true then 0 else dist

/-!  Concrete fixtures used by witnesses and counterexamples. -/

/-- The unit box in one dimension. -/
def unitBox : AABB 1 := ⟨fun _ => 0, fun _ => 1⟩

/-- A ray starting inside `unitBox` and pointing along the axis. -/
def insideRay : Ray 1 := ⟨fun _ => 1 / 2, fun _ => 1⟩

/-- A compound ray-TOI cost function queried with `solid = false` on
`insideRay`; the parts themselves never hit. -/
def cexCompoundFn : CompoundRayToiCostFn 1 Unit :=
  ⟨fun _ => ((), fun _ _ _ => none), insideRay, false⟩

/-- A mesh whose element ray cast reports a hit only for a solid query:
a legitimate instance of the generic element bound `E: RayCast`. -/
def solidSensingMesh : BaseMesh 1 :=
  ⟨fun _ _ s => if s then some 1 else none, fun _ _ _ => none⟩

/-- The mesh ray-TOI cost function over `solidSensingMesh` and `insideRay`. -/
def solidSensingCostFn : BaseMeshRayToiCostFn 1 := ⟨solidSensingMesh, insideRay⟩

/-- C1, counterexample: for the `Compound` cost function queried with
`solid = false` and a ray starting inside the bounding box, the BV cost
is the exit time `1/2`, not the solid entry time `0` that the claim
requires — the BV level does not always use `solid = true`. -/
theorem compound_bv_cost_uses_caller_flag_cex :
    CompoundRayToiCostFn.compute_bv_cost cexCompoundFn unitBox ≠
      aabbToiWithRay unitBox insideRay true := by
  have h1 : CompoundRayToiCostFn.compute_bv_cost cexCompoundFn unitBox = some (1 / 2) := by
    simp only [CompoundRayToiCostFn.compute_bv_cost, cexCompoundFn, aabbToiWithRay,
      unitBox, insideRay, qmin, qmax]
    norm_num [List.finRange, List.filterMap_cons, List.foldl, List.map]
  have h2 : aabbToiWithRay unitBox insideRay true = some 0 := by
    simp only [aabbToiWithRay, unitBox, insideRay, qmin, qmax]
    norm_num [List.finRange, List.filterMap_cons, List.foldl, List.map]
  rw [h1, h2]
  intro h
  exact absurd (Option.some.inj h) (by norm_num)

/-- C1 (amended): the `BaseMesh` cost function's `compute_bv_cost` always
evaluates the bounding AABB's ray TOI with `solid = true`, while the
`Compound` cost function's `compute_bv_cost` forwards the caller's solid
flag to the AABB TOI. -/
theorem bv_cost_solid_flag_per_aggregate {d : ℕ} {M : Type}
    (mf : BaseMeshRayToiCostFn d) (cf : CompoundRayToiCostFn d M) (aabb : AABB d) :
    mf.compute_bv_cost aabb = aabbToiWithRay aabb mf.ray true ∧
    cf.compute_bv_cost aabb = aabbToiWithRay aabb cf.ray cf.solid :=
  ⟨rfl, rfl⟩

/-- C2, counterexample: the `BaseMesh` leaf evaluation does not pass the
caller's flag `s = false` to the element: with an element whose ray cast
answers only solid queries, `compute_b_cost` still reports a hit, whereas
the element invoked with `s = false` reports none. -/
theorem mesh_b_cost_not_caller_flag_cex :
    BaseMeshRayToiCostFn.compute_b_cost solidSensingCostFn 0 ≠
      (solidSensingMesh.elementToi 0 insideRay false).map fun toi => (toi, toi) := by
  simp [BaseMeshRayToiCostFn.compute_b_cost, solidSensingCostFn, solidSensingMesh]

/-- C2 (amended): the `Compound` leaf evaluation passes the caller's solid
flag unchanged to the child's `toi_with_transform_and_ray`, while the
`BaseMesh` leaf evaluation always invokes the element's `toi_with_ray`
with `solid = true`, regardless of the caller's flag (which
`BaseMesh::toi_with_ray` ignores). -/
theorem b_cost_solid_flag_per_aggregate {d : ℕ} {M : Type}
    (cf : CompoundRayToiCostFn d M) (mf : BaseMeshRayToiCostFn d) (b : ℕ) :
    cf.compute_b_cost b =
      (((cf.shapes b).2) (cf.shapes b).1 cf.ray cf.solid).map (fun toi => (toi, toi)) ∧
    mf.compute_b_cost b =
      (mf.mesh.elementToi b mf.ray true).map (fun toi => (toi, toi)) :=
  ⟨rfl, rfl⟩

/-- C10: `BaseMesh::toi_with_ray` and `BaseMesh::toi_and_normal_with_ray`
return identical results for `solid = true` and `solid = false` — the
solid argument is ignored — and so do the `TriMesh` and `Polyline`
forwarders. -/
theorem mesh_ray_cast_ignores_solid {d : ℕ}
    (mesh : BaseMesh d) (t : TriMesh d) (p : Polyline d)
    (search1 : (AABB d → Option ℚ) → (ℕ → Option (ℚ × ℚ)) → Option (ℕ × ℚ))
    (search2 : (AABB d → Option ℚ) → (ℕ → Option (ℚ × RayIntersection d)) →
      Option (ℕ × RayIntersection d))
    (mInv : Ray d → Ray d) (rot : Pt d → Pt d) (ray : Ray d) (s1 s2 : Bool) :
    mesh.toi_with_ray search1 mInv ray s1 = mesh.toi_with_ray search1 mInv ray s2 ∧
    mesh.toi_and_normal_with_ray search2 mInv rot ray s1 =
      mesh.toi_and_normal_with_ray search2 mInv rot ray s2 ∧
    t.toi_with_ray search1 mInv ray s1 = t.toi_with_ray search1 mInv ray s2 ∧
    t.toi_and_normal_with_ray search2 mInv rot ray s1 =
      t.toi_and_normal_with_ray search2 mInv rot ray s2 ∧
    p.toi_with_ray search1 mInv ray s1 = p.toi_with_ray search1 mInv ray s2 ∧
    p.toi_and_normal_with_ray search2 mInv rot ray s1 =
      p.toi_and_normal_with_ray search2 mInv rot ray s2 :=
  ⟨rfl, rfl, rfl, rfl, rfl, rfl⟩

/-- C3: when the stop flag is unset, `compute_bv_cost` returns the solid
distance from the origin to the Minkowski-sum AABB whose bounds are
`bv.mins - c - h` and `bv.maxs - c + h`, where `c` and `h` are the centre
and half extents of the second shape's AABB in the composite's local
frame; the constructor's assertion cannot fire on valid inputs. -/
theorem composite_bv_cost_is_msum_distance {d : ℕ}
    (ls_aabb2 : AABB d) (margin : ℚ) (bv : AABB d)
    (distFn : AABB d → Pt d → Bool → ℚ)
    (f : CompositeShapeAgainstClosestPointsCostFn d)
    (hshift : f.msum_shift = fun i => -(ls_aabb2.center i))
    (hmargin : f.msum_margin = ls_aabb2.half_extents)
    (hstop : f.stop = false)
    (h2 : ls_aabb2.valid) (hbv : bv.valid) :
    CompositeShapeAgainstClosestPointsCostFn.compute_bv_cost distFn f bv =
      some (some (distFn
        ⟨fun i => bv.mins i - ls_aabb2.center i - ls_aabb2.half_extents i,
         fun i => bv.maxs i - ls_aabb2.center i + ls_aabb2.half_extents i⟩
        (originPt d) true)) := by
  have hm : ∀ i, 0 ≤ ls_aabb2.half_extents i := by
    intro i
    have h2i := h2 i
    unfold AABB.half_extents
    linarith
  have hle : pointLe (bv.mins + f.msum_shift + -f.msum_margin)
      (bv.maxs + f.msum_shift + f.msum_margin) := by
    intro i
    have h1 := hbv i
    have h2i := hm i
    simp only [Pi.add_apply, Pi.neg_apply, hshift, hmargin]
    linarith
  have hmins : bv.mins + f.msum_shift + -f.msum_margin =
      fun i => bv.mins i - ls_aabb2.center i - ls_aabb2.half_extents i := by
    funext i
    simp only [Pi.add_apply, Pi.neg_apply, hshift, hmargin]
    ring
  have hmaxs : bv.maxs + f.msum_shift + f.msum_margin =
      fun i => bv.maxs i - ls_aabb2.center i + ls_aabb2.half_extents i := by
    funext i
    simp only [Pi.add_apply, hshift, hmargin]
    ring
  unfold CompositeShapeAgainstClosestPointsCostFn.compute_bv_cost AABB.new
  rw [if_pos hle]
  simp [hstop, hmins, hmaxs]

/-- Fixture: the second shape's local-frame AABB used by the C3 witness. -/
def wAabb2 : AABB 1 := ⟨fun _ => 0, fun _ => 2⟩

/-- Fixture: a BVT node AABB used by the C3 witness. -/
def wBv : AABB 1 := ⟨fun _ => 4, fun _ => 6⟩

/-- Witness for C3 at a concrete input: both AABBs are valid and the cost
of the node is the (dummy) distance routine's value on the Minkowski sum. -/
theorem composite_bv_cost_is_msum_distance_witness :
    wAabb2.valid ∧ wBv.valid ∧
    CompositeShapeAgainstClosestPointsCostFn.compute_bv_cost (fun _ _ _ => 7)
      (CompositeShapeAgainstClosestPointsCostFn.new wAabb2 5) wBv = some (some 7) := by
  have hA : wAabb2.valid := by
    unfold AABB.valid pointLe
    intro i
    norm_num [wAabb2]
  have hB : wBv.valid := by
    unfold AABB.valid pointLe
    intro i
    norm_num [wBv]
  exact ⟨hA, hB,
    composite_bv_cost_is_msum_distance wAabb2 5 wBv (fun _ _ _ => 7) _ rfl rfl rfl hA hB⟩

/-- C4: the leaf evaluation always yields `some (cost, pts)` with `pts`
the primitive closest-points outcome for the leaf and the cost the
witness distance, zero, or the query margin according to the variant. -/
theorem composite_b_cost_result {d : ℕ}
    (cp : ℕ → ClosestPoints d) (dist : Pt d → Pt d → ℚ)
    (f : CompositeShapeAgainstClosestPointsCostFn d) (b : ℕ) :
    (CompositeShapeAgainstClosestPointsCostFn.compute_b_cost cp dist f b).2 =
      some ((match cp b with
        | ClosestPoints.WithinMargin p1 p2 => dist p1 p2
        | ClosestPoints.Intersecting => 0
        | ClosestPoints.Disjoint => f.margin), cp b) := by
  unfold CompositeShapeAgainstClosestPointsCostFn.compute_b_cost
  cases h : cp b <;> simp [h]

/-- C5: after a leaf evaluation observes `Intersecting`, the stop flag is
set, remains set across any further sequence of engine callbacks, and
every subsequent `compute_bv_cost` call that returns yields `None`. -/
theorem stop_flag_prunes_after_intersecting {d : ℕ}
    (cp : ℕ → ClosestPoints d) (dist : Pt d → Pt d → ℚ)
    (distFn : AABB d → Pt d → Bool → ℚ)
    (f : CompositeShapeAgainstClosestPointsCostFn d) (b : ℕ)
    (ops : List (BVTOp d)) (v : AABB d) (r : Option ℚ)
    (hb : cp b = ClosestPoints.Intersecting)
    (hr : CompositeShapeAgainstClosestPointsCostFn.compute_bv_cost distFn
        (runOps cp dist (CompositeShapeAgainstClosestPointsCostFn.compute_b_cost
          cp dist f b).1 ops) v = some r) :
    (runOps cp dist (CompositeShapeAgainstClosestPointsCostFn.compute_b_cost
      cp dist f b).1 ops).stop = true ∧ r = none := by
  have hstep : ∀ (g : CompositeShapeAgainstClosestPointsCostFn d) (op : BVTOp d),
      g.stop = true → (stepState cp dist g op).stop = true := by
    intro g op hg
    cases op with
    | bv v2 => exact hg
    | leaf b2 =>
      unfold stepState CompositeShapeAgainstClosestPointsCostFn.compute_b_cost
      cases h2 : cp b2 <;> simp [h2, hg]
  have hpres : ∀ (l : List (BVTOp d)) (g : CompositeShapeAgainstClosestPointsCostFn d),
      g.stop = true → (runOps cp dist g l).stop = true := by
    intro l
    induction l with
    | nil => intro g hg; exact hg
    | cons op t ih =>
      intro g hg
      unfold runOps List.foldl
      exact ih _ (hstep g op hg)
  have h1 : (CompositeShapeAgainstClosestPointsCostFn.compute_b_cost cp dist f b).1.stop
      = true := by
    unfold CompositeShapeAgainstClosestPointsCostFn.compute_b_cost
    simp [hb]
  have hstop := hpres ops _ h1
  refine ⟨hstop, ?_⟩
  unfold CompositeShapeAgainstClosestPointsCostFn.compute_bv_cost at hr
  cases hnew : AABB.new
      (v.mins + (runOps cp dist (CompositeShapeAgainstClosestPointsCostFn.compute_b_cost
        cp dist f b).1 ops).msum_shift
        + -(runOps cp dist (CompositeShapeAgainstClosestPointsCostFn.compute_b_cost
          cp dist f b).1 ops).msum_margin)
      (v.maxs + (runOps cp dist (CompositeShapeAgainstClosestPointsCostFn.compute_b_cost
        cp dist f b).1 ops).msum_shift
        + (runOps cp dist (CompositeShapeAgainstClosestPointsCostFn.compute_b_cost
          cp dist f b).1 ops).msum_margin) with
  | none =>
    rw [hnew] at hr
    simp at hr
  | some msum =>
    rw [hnew] at hr
    simp [hstop] at hr
    exact hr.symm

/-- Fixture: the primitive closest-points oracle that always intersects. -/
def cpW : ℕ → ClosestPoints 1 := fun _ => ClosestPoints.Intersecting

/-- Fixture: a dummy external distance between points. -/
def distW : Pt 1 → Pt 1 → ℚ := fun _ _ => 0

/-- Fixture: a dummy external point-AABB distance. -/
def dfW : AABB 1 → Pt 1 → Bool → ℚ := fun _ _ _ => 0

/-- Fixture: an initial cost-function state with the stop flag unset. -/
def fW : CompositeShapeAgainstClosestPointsCostFn 1 :=
  ⟨fun _ => 0, fun _ => 0, 0, false⟩

/-- Fixture: a sequence of engine callbacks after the intersecting leaf. -/
def opsW : List (BVTOp 1) := [BVTOp.bv unitBox, BVTOp.leaf 3]

/-- Witness for C5 at a concrete input. -/
theorem stop_flag_prunes_witness :
    cpW 3 = ClosestPoints.Intersecting ∧
    ((runOps cpW distW (CompositeShapeAgainstClosestPointsCostFn.compute_b_cost
        cpW distW fW 3).1 opsW).stop = true ∧ (none : Option ℚ) = none) := by
  have hr : CompositeShapeAgainstClosestPointsCostFn.compute_bv_cost dfW
      (runOps cpW distW (CompositeShapeAgainstClosestPointsCostFn.compute_b_cost
        cpW distW fW 3).1 opsW) unitBox = some none := by
    simp [CompositeShapeAgainstClosestPointsCostFn.compute_bv_cost, runOps, stepState,
      CompositeShapeAgainstClosestPointsCostFn.compute_b_cost, cpW, fW, opsW, distW, dfW,
      AABB.new, pointLe, unitBox, List.foldl, Fin.forall_fin_one]
  exact ⟨rfl, stop_flag_prunes_after_intersecting cpW distW dfW fW 3 opsW unitBox none rfl hr⟩

/-- C6: `shape_against_composite_shape` is the composite query with the
arguments swapped and the result's witness points flipped; the flip
leaves `Intersecting` and `Disjoint` unchanged and swaps the points of
`WithinMargin`. -/
theorem shape_against_composite_is_flip {d : ℕ} {M G : Type}
    (bfs : M → G → M → G → ℚ → Option (ℕ × ClosestPoints d))
    (m1 : M) (g1 : G) (m2 : M) (g2 : G) (margin : ℚ) :
    shape_against_composite_shape bfs m1 g1 m2 g2 margin =
      (composite_shape_against_shape bfs m2 g2 m1 g1 margin).map ClosestPoints.flip ∧
    (∀ p1 p2 : Pt d, ClosestPoints.flip (ClosestPoints.WithinMargin p1 p2) =
      ClosestPoints.WithinMargin p2 p1) ∧
    ClosestPoints.flip (ClosestPoints.Intersecting : ClosestPoints d) =
      ClosestPoints.Intersecting ∧
    ClosestPoints.flip (ClosestPoints.Disjoint : ClosestPoints d) =
      ClosestPoints.Disjoint :=
  ⟨rfl, fun _ _ => rfl, rfl, rfl⟩

/-- C7: the composite closest-points query aborts exactly when the
best-first search yields no result, and returns the search's leaf value
otherwise. -/
theorem composite_expect_none_iff_search_none {d : ℕ} {M G : Type}
    (bfs : M → G → M → G → ℚ → Option (ℕ × ClosestPoints d))
    (m1 : M) (g1 : G) (m2 : M) (g2 : G) (margin : ℚ) :
    (composite_shape_against_shape bfs m1 g1 m2 g2 margin = none ↔
      bfs m1 g1 m2 g2 margin = none) ∧
    ∀ b res, bfs m1 g1 m2 g2 margin = some (b, res) →
      composite_shape_against_shape bfs m1 g1 m2 g2 margin = some res := by
  constructor
  · unfold composite_shape_against_shape
    cases h : bfs m1 g1 m2 g2 margin <;> simp
  · intro b res h
    unfold composite_shape_against_shape
    rw [h]
    rfl

/-- Fixture: a best-first search outcome producing one leaf result. -/
def bfsW : Unit → Unit → Unit → Unit → ℚ → Option (ℕ × ClosestPoints 1) :=
  fun _ _ _ _ _ => some (0, ClosestPoints.Intersecting)

/-- Witness for C7 at a concrete input. -/
theorem composite_expect_witness :
    bfsW () () () () 0 = some (0, ClosestPoints.Intersecting) ∧
    composite_shape_against_shape bfsW () () () () 0 =
      some ClosestPoints.Intersecting :=
  ⟨rfl, (composite_expect_none_iff_search_none bfsW () () () () 0).2 0
    ClosestPoints.Intersecting rfl⟩

/-- C8: for a point whose local-space dot product with the plane normal
is positive, the plane's `distance_to_point` is the same positive value
for both solid modes. -/
theorem plane_distance_solid_irrelevant_outside {d : ℕ}
    (normal : Pt d) (mInv : Pt d → Pt d) (pt : Pt d)
    (h : 0 < dotQ normal (mInv pt)) :
    Plane.distance_to_point normal mInv pt true =
      Plane.distance_to_point normal mInv pt false ∧
    0 < Plane.distance_to_point normal mInv pt true := by
  have hn : ¬(dotQ normal (mInv pt) < 0 ∧ True) := by
    intro hc
    linarith [hc.1]
  have hn2 : ¬(dotQ normal (mInv pt) < 0 ∧ (false : Bool) = true) := by
    intro hc
    exact Bool.false_ne_true hc.2
  simp only [Plane.distance_to_point]
  rw [if_neg hn, if_neg hn2]
  exact ⟨rfl, h⟩

/-- Fixture: a plane normal for the C8 witness. -/
def pnW : Pt 1 := fun _ => 1

/-- Fixture: an outside point for the C8 witness. -/
def ptW : Pt 1 := fun _ => 2

/-- Witness for C8 at a concrete input. -/
theorem plane_distance_witness :
    0 < dotQ pnW (id ptW) ∧
    (Plane.distance_to_point pnW id ptW true =
      Plane.distance_to_point pnW id ptW false ∧
     0 < Plane.distance_to_point pnW id ptW true) := by
  have h : 0 < dotQ pnW (id ptW) := by
    norm_num [dotQ, Fin.sum_univ_one, pnW, ptW]
  exact ⟨h, plane_distance_solid_irrelevant_outside pnW id ptW h⟩

/-- C9: `tightened` aborts on a negative margin; with a nonnegative
margin it returns the shrunk box when that box is valid and aborts
through the constructor's assertion otherwise. -/
theorem tightened_assert_behaviour {d : ℕ} (a : AABB d) (e : ℚ) (ha : a.valid) :
    (e < 0 → a.tightened e = none) ∧
    (0 ≤ e → pointLe (a.mins + constPt d e) (a.maxs - constPt d e) →
      a.tightened e = some ⟨a.mins + constPt d e, a.maxs - constPt d e⟩) ∧
    (0 ≤ e → ¬pointLe (a.mins + constPt d e) (a.maxs - constPt d e) →
      a.tightened e = none) := by
  have heq : a.maxs + constPt d (-e) = a.maxs - constPt d e := by
    funext i
    simp only [constPt, Pi.add_apply, Pi.sub_apply]
    ring
  refine ⟨?_, ?_, ?_⟩
  · intro he
    unfold AABB.tightened
    rw [if_neg (not_le.mpr he)]
  · intro he hple
    unfold AABB.tightened AABB.new
    rw [if_pos he, heq, if_pos hple]
  · intro he hple
    unfold AABB.tightened AABB.new
    rw [if_pos he, heq, if_neg hple]

/-- Fixture: a valid box for the C9 witness. -/
def boxW : AABB 1 := ⟨fun _ => 0, fun _ => 10⟩

/-- Witness for C9 at a concrete input. -/
theorem tightened_witness :
    boxW.valid ∧ (0 : ℚ) ≤ 1 ∧
    pointLe (boxW.mins + constPt 1 1) (boxW.maxs - constPt 1 1) ∧
    AABB.tightened boxW 1 = some ⟨boxW.mins + constPt 1 1, boxW.maxs - constPt 1 1⟩ := by
  have h1 : boxW.valid := by
    unfold AABB.valid pointLe
    intro i
    norm_num [boxW]
  have h2 : pointLe (boxW.mins + constPt 1 1) (boxW.maxs - constPt 1 1) := by
    unfold pointLe
    intro i
    norm_num [boxW, constPt, Pi.add_apply, Pi.sub_apply]
  exact ⟨h1, by norm_num, h2,
    (tightened_assert_behaviour boxW 1 h1).2.1 (by norm_num) h2⟩

end NCollide
